import Mathlib

/-!
Verification of the arbitrage core of the `finance` repository.

The definitions below are a shallow embedding of
`src/cross_exchange_arbitrage.py` (class `CrossExchangeArbitrageBot`) and
`src/triangular_arbitrage.py` (class `TriangularArbitrageBot`).
Python floats are modelled as rationals (`ℚ`), Python `None` as `Option`,
and the venue network as an explicit environment record of oracle
functions, one per remote call the orchestrator makes.
-/

namespace Finance

/-! ## Quotes (`fetch_ticker_async` result dictionaries)

A quote dictionary `{'exchange', 'symbol', 'bid', 'ask', 'timestamp'}`.
`bid`/`ask` can be `None` in ccxt, hence `Option ℚ`.  The timestamp is
carried along by the Python code but never read by any computation
modelled here, so it is omitted. -/

structure PriceInfo where
  exchange : String
  symbol : String
  bid : Option ℚ
  ask : Option ℚ
deriving DecidableEq, Repr

/-- The attribute `self.min_profit_threshold = 1.0  # at least 1% profit` (a percentage). -/
def min_profit_threshold : ℚ := 1

/-- Python truthiness of a float-or-None value: `None` and `0.0` are falsy.
Used for the guard `if not buy_price or not sell_price: continue`. -/
def truthyQ : Option ℚ → Bool
  | none => false
  | some x => decide (x ≠ 0)

/-- Function `get_trading_fee`: the per-venue taker-fee table with default `0.002`. -/
def get_trading_fee (exchange_id : String) : ℚ :=
  if exchange_id = "binance" then 1/1000
  else if exchange_id = "kucoin" then 1/1000
  else if exchange_id = "okx" then 8/10000
  else if exchange_id = "bybit" then 1/1000
  else if exchange_id = "gate" then 2/1000
  else 2/1000

/-- Character-level worker for `split_on_slash`. -/
def splitSlashAux : List Char → List Char → List (List Char)
  | [], acc => [acc.reverse]
  | c :: cs, acc =>
    if c = '/' then acc.reverse :: splitSlashAux cs [] else splitSlashAux cs (c :: acc)

/-- Python's `s.split('/')`: the segments of `s` between `/` characters
(empty segments included, and at least one segment always returned). -/
def split_on_slash (s : String) : List String :=
  (splitSlashAux s.data []).map String.mk

/-- Python `symbol.split('/')[0]` — the base currency of a `BASE/QUOTE` symbol. -/
def base_currency_of (symbol : String) : String :=
  (split_on_slash symbol).getD 0 ""

/-- Python `symbol.split('/')[1]` — the quote currency.  In Python an index error
is raised when there is no `/`; the callers modelled here run it inside a
`try` whose handler is made explicit at each call site. -/
def quote_currency_of (symbol : String) : String :=
  (split_on_slash symbol).getD 1 ""

/-- Function `get_withdrawal_fee`: nested table `exchange → base currency → fee`,
with `.get(exchange_id, {}).get(base_currency, 0)` defaulting to `0`. -/
def get_withdrawal_fee (exchange_id : String) (symbol : String) : ℚ :=
  let base := base_currency_of symbol
  if exchange_id = "binance" then
    if base = "BTC" then 5/10000 else if base = "ETH" then 5/1000
    else if base = "USDT" then 1 else 0
  else if exchange_id = "kucoin" then
    if base = "BTC" then 5/10000 else if base = "ETH" then 1/100
    else if base = "USDT" then 1 else 0
  else if exchange_id = "okx" then
    if base = "BTC" then 4/10000 else if base = "ETH" then 6/1000
    else if base = "USDT" then 8/10 else 0
  else 0

/-- Function `estimate_transfer_time`: pairwise minutes table with default `30`. -/
def estimate_transfer_time (from_exchange to_exchange : String) : ℕ :=
  if from_exchange = "binance" ∧ to_exchange = "kucoin" then 15
  else if from_exchange = "binance" ∧ to_exchange = "okx" then 10
  else if from_exchange = "kucoin" ∧ to_exchange = "okx" then 20
  else 30

/-! ## The per-pair profit computation (`calculate_arbitrage_profit`, body
of the inner loop, lines 100–110) -/

/-- Line `amount_bought = (investment_amount / buy_price) * (1 - buy_fee)`. -/
def calc_amount_bought (investment buy_price buy_fee : ℚ) : ℚ :=
  investment / buy_price * (1 - buy_fee)

/-- Line `amount_after_sell = (amount_after_withdrawal * sell_price) * (1 - sell_fee)`
with `amount_after_withdrawal = amount_bought - withdrawal_fee`. -/
def calc_final_amount (investment buy_price sell_price buy_fee sell_fee withdrawal_fee : ℚ) : ℚ :=
  (calc_amount_bought investment buy_price buy_fee - withdrawal_fee) * sell_price * (1 - sell_fee)

/-- Line `profit = amount_after_sell - investment_amount`. -/
def calc_profit (investment buy_price sell_price buy_fee sell_fee withdrawal_fee : ℚ) : ℚ :=
  calc_final_amount investment buy_price sell_price buy_fee sell_fee withdrawal_fee - investment

/-- Line `profit_percent = (profit / investment_amount) * 100`. -/
def calc_profit_percent (investment buy_price sell_price buy_fee sell_fee withdrawal_fee : ℚ) : ℚ :=
  calc_profit investment buy_price sell_price buy_fee sell_fee withdrawal_fee / investment * 100

/-- The opportunity dictionary appended when `profit_percent` clears the
threshold.  The Python dictionary also holds `'timestamp': datetime.now()`,
which is impure and read by nothing modelled here, so it is omitted. -/
structure Opportunity where
  buy_exchange : String
  sell_exchange : String
  symbol : String
  buy_price : ℚ
  sell_price : ℚ
  profit_amount : ℚ
  profit_percent : ℚ
  investment : ℚ
  final_amount : ℚ
  transfer_time : ℕ
deriving DecidableEq, Repr

/-- The opportunity dictionary built from the buy-side quote, the
sell-side quote and the (non-`None`) prices read off them; every numeric
field comes from the `calc_*` chain above. -/
def mkOpportunity (buy sell : PriceInfo) (investment buy_price sell_price : ℚ) :
    Opportunity :=
  let buy_fee := get_trading_fee buy.exchange
  let sell_fee := get_trading_fee sell.exchange
  let withdrawal_fee := get_withdrawal_fee buy.exchange buy.symbol
  { buy_exchange := buy.exchange
    sell_exchange := sell.exchange
    symbol := buy.symbol
    buy_price := buy_price
    sell_price := sell_price
    profit_amount :=
      calc_profit investment buy_price sell_price buy_fee sell_fee withdrawal_fee
    profit_percent :=
      calc_profit_percent investment buy_price sell_price buy_fee sell_fee withdrawal_fee
    investment := investment
    final_amount :=
      calc_final_amount investment buy_price sell_price buy_fee sell_fee withdrawal_fee
    transfer_time := estimate_transfer_time buy.exchange sell.exchange }

/-- One iteration of the double loop of `calculate_arbitrage_profit`:
given the buy-side and sell-side quotes, either skip (`none`) — when a
price is missing/zero or the profit misses the threshold — or produce the
opportunity dictionary. -/
def scorePair (investment : ℚ) (buy sell : PriceInfo) : Option Opportunity :=
  match buy.ask, sell.bid with
  | some buy_price, some sell_price =>
    if buy_price = 0 ∨ sell_price = 0 then none
    else
      let profit_percent :=
        calc_profit_percent investment buy_price sell_price
          (get_trading_fee buy.exchange) (get_trading_fee sell.exchange)
          (get_withdrawal_fee buy.exchange buy.symbol)
      if min_profit_threshold < profit_percent then
        some (mkOpportunity buy sell investment buy_price sell_price)
      else none
  | _, _ => none

/-- All pairs `(prices[i], prices[j])` with `i < j`, in the iteration
order of the Python double loop (`if i >= j: continue`). -/
def upperPairs {α : Type} : List α → List (α × α)
  | [] => []
  | x :: xs => xs.map (fun y => (x, y)) ++ upperPairs xs

/-- Function `calculate_arbitrage_profit(prices, investment_amount)`: score every
pair with `i < j`, collect the opportunities in loop order, and return
`sorted(opportunities, key=lambda x: x['profit_percent'], reverse=True)` —
Python's `sorted` is a stable merge sort, and `reverse=True` flips the key
comparison while preserving the order of ties. -/
def calculate_arbitrage_profit (prices : List PriceInfo) (investment_amount : ℚ) :
    List Opportunity :=
  ((upperPairs prices).filterMap (fun p => scorePair investment_amount p.1 p.2)).mergeSort
    (fun a b => decide (b.profit_percent ≤ a.profit_percent))

/-! ## Execution orchestrator (`execute_arbitrage` and its helpers)

Each `await`ed remote call is an oracle of an explicit environment; a
Python call that returns `None` on any caught exception is an oracle
returning `Option`. -/

/-- A ccxt order dictionary, as read by `execute_arbitrage`
(`'status'`, `'filled'`, `'cost'`). -/
structure OrderResult where
  status : String
  filled : ℚ
  cost : ℚ
deriving DecidableEq, Repr

/-- One entry of `fetch_deposits` (`'amount'` and `'status'` are read). -/
structure Deposit where
  amount : ℚ
  status : String
deriving DecidableEq, Repr

/-- The venue network as seen by one run of `execute_arbitrage`. -/
structure Env where
  /-- Oracle for `fetch_balance` per exchange: `none` when the call raises, otherwise
  the `'free'` map `currency → amount` (Python `.get(c, 0)` built in). -/
  balance : String → Option (String → ℚ)
  /-- Oracle for `place_market_order(exchange_id, symbol, side, amount)`: `none` when
  the order raises (the function catches and returns `None`). -/
  marketOrder : String → String → String → ℚ → Option OrderResult
  /-- Oracle for `fetch_deposit_address(currency)` on the destination exchange:
  `none` when it raises, otherwise the address string. -/
  depositAddress : String → String → Option String
  /-- Oracle for `withdraw(currency, amount, address, ...)` on the source exchange:
  `none` when it raises. -/
  withdrawCall : String → String → ℚ → String → Option Unit
  /-- Oracle for `fetch_deposits(base_currency)` on the destination exchange, per
  poll round of `wait_for_deposit`. -/
  deposits : ℕ → List Deposit

/-- Function `check_balances`: fetch both venues' balances, then
`sufficient = available_for_buy >= amount` where `available_for_buy` is the
free quote-currency balance on the buy venue.  Any exception — either
balance fetch raising, or `symbol.split('/')[1]` failing — lands in the
`except` branch, which returns `{'sufficient': False}`.  The free
base-currency balance on the sell venue (`available_for_sell`) is fetched
and reported but takes no part in the verdict.  Only the `'sufficient'`
field is read by the caller, so only it is modelled. -/
def check_balances (env : Env) (buy_exchange_id sell_exchange_id symbol : String)
    (amount : ℚ) : Bool :=
  match env.balance buy_exchange_id, env.balance sell_exchange_id with
  | some buy_free, some _sell_free =>
    if (split_on_slash symbol).length < 2 then false
    else decide (amount ≤ buy_free (quote_currency_of symbol))
  | _, _ => false

/-- Function `withdraw_crypto`: fetch the deposit address of the base currency on
the destination exchange, then withdraw from the source exchange; any
exception yields `None`. -/
def withdraw_crypto (env : Env) (from_exchange_id to_exchange_id symbol : String)
    (amount : ℚ) : Option Unit :=
  match env.depositAddress to_exchange_id (base_currency_of symbol) with
  | none => none
  | some address =>
    env.withdrawCall from_exchange_id (base_currency_of symbol) amount address

/-- Constant from `timeout=3600` seconds, polling `await asyncio.sleep(30)` between
rounds: at most `3600 / 30 = 120` polls. -/
def deposit_wait_max_polls : ℕ := 3600 / 30

/-- One poll round of `wait_for_deposit`: scan `deposits[:5]` for an entry
with `amount >= expected_amount * 0.99` and `status == 'ok'`. -/
def deposit_confirmed (deposits : List Deposit) (expected_amount : ℚ) : Bool :=
  (deposits.take 5).any
    (fun d => decide (expected_amount * (99/100) ≤ d.amount) && decide (d.status = "ok"))

/-- Function `wait_for_deposit`: poll until a matching confirmed deposit appears or
the polls are exhausted (`time.time() - start_time < timeout` fails);
returns `False` on timeout after logging `Deposit timeout`. -/
def wait_for_deposit (polls : ℕ → List Deposit) (expected_amount : ℚ) : ℕ → Bool
  | 0 => false
  | n + 1 =>
    if deposit_confirmed (polls 0) expected_amount then true
    else wait_for_deposit (fun k => polls (k + 1)) expected_amount n

/-- A call to `place_market_order`, as recorded for the execution trace:
which exchange, symbol, side and amount were sent to the venue. -/
structure PlacedOrder where
  exchange : String
  symbol : String
  side : String
  amount : ℚ
deriving DecidableEq, Repr

/-- The dictionary returned by `execute_arbitrage` on success. -/
structure ExecResult where
  success : Bool
  actual_profit : ℚ
  expected_profit : ℚ
deriving DecidableEq, Repr

/-- Function `execute_arbitrage(opportunity)`: balance check, market buy, withdrawal
(with compensating same-venue sell if it fails), deposit wait — whose
boolean result the Python code discards — then the disposing market sell.
Returns the Python result (`None` on every failure path) paired with the
trace of every `place_market_order` call made, in order. -/
def execute_arbitrage (env : Env) (opportunity : Opportunity) :
    Option ExecResult × List PlacedOrder :=
  let buy_exchange_id := opportunity.buy_exchange
  let sell_exchange_id := opportunity.sell_exchange
  let symbol := opportunity.symbol
  let investment := opportunity.investment
  -- مرحله 1: بررسی موجودی
  if check_balances env buy_exchange_id sell_exchange_id symbol investment = false then
    (none, [])
  else
    -- مرحله 2: خرید از صرافی اول
    let buy_call : PlacedOrder := ⟨buy_exchange_id, symbol, "buy", investment⟩
    match env.marketOrder buy_exchange_id symbol "buy" investment with
    | none => (none, [buy_call])
    | some buy_order =>
      if buy_order.status ≠ "closed" then (none, [buy_call])
      else
        -- مرحله 3: انتقال به صرافی دوم
        match withdraw_crypto env buy_exchange_id sell_exchange_id symbol buy_order.filled with
        | none =>
          -- استراتژی بازگشت: فروش در همان صرافی
          let compensation : PlacedOrder := ⟨buy_exchange_id, symbol, "sell", buy_order.filled⟩
          (none, [buy_call, compensation])
        | some _ =>
          -- مرحله 4: منتظر تایید انتقال — the returned Bool is discarded
          let _deposited :=
            wait_for_deposit env.deposits buy_order.filled deposit_wait_max_polls
          -- مرحله 5: فروش در صرافی دوم
          let sell_call : PlacedOrder := ⟨sell_exchange_id, symbol, "sell", buy_order.filled⟩
          match env.marketOrder sell_exchange_id symbol "sell" buy_order.filled with
          | some sell_order =>
            if sell_order.status = "closed" then
              (some ⟨true, sell_order.cost - investment, opportunity.profit_amount⟩,
               [buy_call, sell_call])
            else (none, [buy_call, sell_call])
          | none => (none, [buy_call, sell_call])

/-! ## Triangular arbitrage (`src/triangular_arbitrage.py`) -/

/-- A market symbol `BASE/QUOTE`; currency names contain no `/`, so the
string operations `endswith('/USDT')`, `startswith(coin + '/')` and
`split('/')` act on the two components. -/
structure MarketSym where
  base : String
  quote : String
deriving DecidableEq, Repr

/-- A triangle dictionary `{'path': [...], 'currencies': [...]}`. -/
structure Triangle where
  path : List MarketSym
  currencies : List String
deriving DecidableEq, Repr

/-- Function `find_triangular_pairs`: every `pair_a` ending in `/USDT` gives
`coin_a`; every `pair_b` starting with `coin_a + '/'` gives `coin_b`; the
triangle is kept when `coin_b + '/USDT'` is a market.  `markets` is the
symbol list in its Python (insertion-order) iteration order, and
`base_currency` is the constructor argument (default `'USDT'`). -/
def find_triangular_pairs (markets : List MarketSym) (base_currency : String) :
    List Triangle :=
  (markets.filter (fun s => s.quote = "USDT")).flatMap (fun pair_a =>
    let coin_a := pair_a.base
    (markets.filter (fun s => s.base = coin_a)).filterMap (fun pair_b =>
      let coin_b := pair_b.quote
      let pair_c : MarketSym := ⟨coin_b, "USDT"⟩
      if pair_c ∈ markets then
        some ⟨[pair_a, pair_b, pair_c], [base_currency, coin_a, coin_b, base_currency]⟩
      else none))

/-- Top of an order book as returned by `fetch_orderbook`. -/
structure OrderBookTop where
  bid : Option ℚ
  ask : Option ℚ
deriving DecidableEq, Repr

/-- Function `fetch_orderbook`: best bid/ask price, `None` on an empty book side. -/
def fetch_orderbook (bids asks : List (ℚ × ℚ)) : OrderBookTop :=
  ⟨(bids.head?).map Prod.fst, (asks.head?).map Prod.fst⟩

/-- The opportunity dictionary of `calculate_arbitrage_opportunity`
(the `'triangle'` back-reference is omitted; `'path_type'` is always
`'forward'`). -/
structure TriOpportunity where
  profit_percent : ℚ
  profit_amount : ℚ
  final_amount : ℚ
deriving DecidableEq, Repr

/-- Constant `fee_rate = 0.001` per leg in `calculate_arbitrage_opportunity`. -/
def tri_fee_rate : ℚ := 1/1000

/-- Function `calculate_arbitrage_opportunity` for one triangle, given the three
fetched top-of-book price pairs: `None` unless all of
`prices_a['ask']`, `prices_b['ask']`, `prices_c['bid']` are truthy, else
`step1 = amount/ask_a`, `step2 = step1/ask_b`, `step3 = step2*bid_c`,
`final = step3 * (1 - fee)^3`. -/
def calculate_arbitrage_opportunity (prices_a prices_b prices_c : OrderBookTop)
    (starting_amount : ℚ) : Option TriOpportunity :=
  if truthyQ prices_a.ask && truthyQ prices_b.ask && truthyQ prices_c.bid then
    let step1 := starting_amount / prices_a.ask.getD 0
    let step2 := step1 / prices_b.ask.getD 0
    let step3 := step2 * (prices_c.bid.getD 0)
    let final_amount := step3 * (1 - tri_fee_rate) ^ 3
    let profit_loss := final_amount - starting_amount
    some { profit_percent := profit_loss / starting_amount * 100
           profit_amount := profit_loss
           final_amount := final_amount }
  else none

/-! ## Spec-side comparison definitions

These two definitions are written from the spec's words (§4.2), not from
the code, to be compared against the embedded code above. -/

/-- The spec's cross-venue profit formula, §4.2:
`amountBought = investment / ask * (1 - takerFee)`,
`amountAfterTransfer = amountBought - withdrawalFee`,
`proceeds = amountAfterTransfer * bid * (1 - takerFee)`,
`profitFraction = proceeds / investment - 1`. -/
def spec_profitFraction (investment ask bid buyTakerFee sellTakerFee withdrawalFee : ℚ) : ℚ :=
  let amountBought := investment / ask * (1 - buyTakerFee)
  let amountAfterTransfer := amountBought - withdrawalFee
  let proceeds := amountAfterTransfer * bid * (1 - sellTakerFee)
  proceeds / investment - 1

/-- Lexicographic strict comparison of character lists, used to spell out
the spec's "lexical venue-pair ordering". -/
def lexLtb : List Char → List Char → Bool
  | [], [] => false
  | [], _ :: _ => true
  | _ :: _, [] => false
  | a :: as, b :: bs => if a < b then true else if b < a then false else lexLtb as bs

/-- Strict lexical order on venue names. -/
def str_lex_lt (s t : String) : Prop := lexLtb s.data t.data = true

/-- Non-strict lexical order on venue names. -/
def str_lex_le (s t : String) : Prop := str_lex_lt s t ∨ s = t

instance (s t : String) : Decidable (str_lex_lt s t) := by
  unfold str_lex_lt; infer_instance

instance (s t : String) : Decidable (str_lex_le s t) := by
  unfold str_lex_le; infer_instance

/-- The spec's ranking order, §4.2: descending by profit fraction, ties
broken by larger expected absolute profit, then by lexical venue-pair
ordering. -/
def spec_rank_le (a b : Opportunity) : Prop :=
  b.profit_percent < a.profit_percent ∨
    (b.profit_percent = a.profit_percent ∧
      (b.profit_amount < a.profit_amount ∨
        (b.profit_amount = a.profit_amount ∧
          (str_lex_lt a.buy_exchange b.buy_exchange ∨
            (a.buy_exchange = b.buy_exchange ∧
              str_lex_le a.sell_exchange b.sell_exchange)))))

/-! ## Concrete fixtures used by counterexamples and witnesses -/

/-- A venue quote with a high bid (`200`) and a high ask (`300`). -/
def quoteA : PriceInfo := ⟨"a", "BTC/USDT", some 200, some 300⟩

/-- A venue quote with bid and ask both `100`: buying here at `100` and
selling at `quoteA`'s bid `200` would be hugely profitable. -/
def quoteB : PriceInfo := ⟨"b", "BTC/USDT", some 100, some 100⟩

/-- A venue quote with bid `150`, ask `400`. -/
def quoteC : PriceInfo := ⟨"c", "BTC/USDT", some 150, some 400⟩

/-- A venue quote with bid and ask both `90`: buying here and selling at
`quoteC`'s bid `150` would be hugely profitable. -/
def quoteD : PriceInfo := ⟨"d", "BTC/USDT", some 90, some 90⟩

/-- A venue quote with ask `100`, bid `102`. -/
def quoteE : PriceInfo := ⟨"echo", "BTC/USDT", some 102, some 100⟩

/-- A venue quote with bid `102` and a prohibitive ask. -/
def quoteF : PriceInfo := ⟨"fox", "BTC/USDT", some 102, some 100000⟩

/-- A quote whose ask `100` makes both later-listed bids profitable. -/
def quoteZ : PriceInfo := ⟨"zeta", "BTC/USDT", some 50, some 100⟩

/-- Equal bid to `quoteAlpha`, listed before it, lexically after it. -/
def quoteBeta : PriceInfo := ⟨"beta", "BTC/USDT", some 102, some 1000000⟩

/-- Equal bid to `quoteBeta`, listed after it, lexically before it. -/
def quoteAlpha : PriceInfo := ⟨"alpha", "BTC/USDT", some 102, some 1000000⟩

/-- A concrete opportunity record handed to the orchestrator fixtures. -/
def oppFix : Opportunity :=
  { buy_exchange := "binance", sell_exchange := "kucoin", symbol := "BTC/USDT"
    buy_price := 100, sell_price := 102, profit_amount := 17
    profit_percent := 17/10, investment := 1000, final_amount := 1017
    transfer_time := 15 }

/-- An environment where balances, orders and the withdrawal all succeed,
but no deposit ever shows up on the destination venue: the deposit wait
can only time out. -/
def envTimeout : Env :=
  { balance := fun _ => some fun _ => 1000000
    marketOrder := fun _ _ _ _ => some ⟨"closed", 10, 980⟩
    depositAddress := fun _ _ => some "addr"
    withdrawCall := fun _ _ _ _ => some ()
    deposits := fun _ => [] }

/-- An environment where the balance check and the buy order succeed but
withdrawal initiation fails (the deposit-address fetch raises). -/
def envWithdrawFail : Env :=
  { balance := fun _ => some fun _ => 1000000
    marketOrder := fun _ _ _ _ => some ⟨"closed", 7, 700⟩
    depositAddress := fun _ _ => none
    withdrawCall := fun _ _ _ _ => none
    deposits := fun _ => [] }

/-- An environment whose free balances are far below `oppFix`'s
investment: the balance check must report insufficient. -/
def envPoor : Env :=
  { balance := fun _ => some fun _ => 1
    marketOrder := fun _ _ _ _ => some ⟨"closed", 10, 980⟩
    depositAddress := fun _ _ => some "addr"
    withdrawCall := fun _ _ _ _ => some ()
    deposits := fun _ => [] }

/-- A three-symbol market list admitting exactly one triangle. -/
def triMarkets : List MarketSym := [⟨"BTC", "USDT"⟩, ⟨"BTC", "ETH"⟩, ⟨"ETH", "USDT"⟩]

/-- The triangle `find_triangular_pairs` builds from `triMarkets`. -/
def triBTCETH : Triangle :=
  ⟨[⟨"BTC", "USDT"⟩, ⟨"BTC", "ETH"⟩, ⟨"ETH", "USDT"⟩], ["USDT", "BTC", "ETH", "USDT"]⟩

/-! ## Helper lemmas -/

/-- Membership in `upperPairs` is exactly "the first component precedes
the second in the list". -/
theorem mem_upperPairs {α : Type} (l : List α) (a b : α) :
    (a, b) ∈ upperPairs l ↔
      ∃ i j : ℕ, i < j ∧ l[i]? = some a ∧ l[j]? = some b := by
  induction l with
  | nil => simp [upperPairs]
  | cons x xs ih =>
    simp only [upperPairs, List.mem_append, List.mem_map, ih]
    constructor
    · rintro (⟨y, hy, heq⟩ | ⟨i, j, hij, ha, hb⟩)
      · injection heq with h1 h2
        subst h1; subst h2
        obtain ⟨n, hn, hval⟩ := List.mem_iff_getElem.mp hy
        exact ⟨0, n + 1, by omega, by simp,
          by simp [List.getElem?_cons_succ, List.getElem?_eq_getElem hn, hval]⟩
      · exact ⟨i + 1, j + 1, by omega, by simpa, by simpa⟩
    · rintro ⟨i, j, hij, ha, hb⟩
      match i, j with
      | 0, 0 => omega
      | 0, j + 1 =>
        left
        refine ⟨b, List.getElem?_mem (by simpa using hb), ?_⟩
        simp only [List.getElem?_cons_zero, Option.some.injEq] at ha
        rw [ha]
      | i + 1, j + 1 =>
        right
        exact ⟨i, j, by omega, by simpa using ha, by simpa using hb⟩

/-- Membership in the scorer's output is membership among the scored
upper pairs (the final sort permutes only). -/
theorem mem_calculate_iff (prices : List PriceInfo) (inv : ℚ) (o : Opportunity) :
    o ∈ calculate_arbitrage_profit prices inv ↔
      ∃ p ∈ upperPairs prices, scorePair inv p.1 p.2 = some o := by
  unfold calculate_arbitrage_profit
  rw [List.mem_mergeSort, List.mem_filterMap]

/-- The code's emission test `profit_percent > 1.0` is the spec's
`profitFraction > 1/100`, for every investment (including `0`, where both
sides are false). -/
theorem threshold_iff (inv bp sp bf sf wf : ℚ) :
    min_profit_threshold <
        calc_profit_percent inv bp sp bf sf wf ↔
      1/100 < spec_profitFraction inv bp sp bf sf wf := by
  unfold min_profit_threshold calc_profit_percent calc_profit calc_final_amount
    calc_amount_bought spec_profitFraction
  rcases eq_or_ne inv 0 with rfl | h
  · norm_num
  · rw [sub_div, div_self h]
    constructor <;> intro <;> linarith

/-- Lemma: `scorePair` succeeds exactly on present non-zero prices whose spec
profit fraction clears `1%`, and then builds `mkOpportunity`. -/
theorem scorePair_eq_some_iff (inv : ℚ) (buy sell : PriceInfo) (o : Opportunity) :
    scorePair inv buy sell = some o ↔
      ∃ bp sp, buy.ask = some bp ∧ sell.bid = some sp ∧ bp ≠ 0 ∧ sp ≠ 0 ∧
        1/100 < spec_profitFraction inv bp sp (get_trading_fee buy.exchange)
          (get_trading_fee sell.exchange)
          (get_withdrawal_fee buy.exchange buy.symbol) ∧
        o = mkOpportunity buy sell inv bp sp := by
  rcases hb : buy.ask with _ | bp <;> rcases hs : sell.bid with _ | sp
  · simp [scorePair, hb, hs]
  · simp [scorePair, hb, hs]
  · simp [scorePair, hb, hs]
  · simp only [scorePair, hb, hs, Option.some.injEq]
    split_ifs with h1 h2
    · simp only [reduceCtorEq, false_iff]
      rintro ⟨bp', sp', rfl, rfl, hbp0, hsp0, -, -⟩
      rcases h1 with h1 | h1
      · exact hbp0 h1
      · exact hsp0 h1
    · simp only [Option.some.injEq]
      constructor
      · rintro rfl
        exact ⟨bp, sp, rfl, rfl, (not_or.mp h1).1, (not_or.mp h1).2,
          (threshold_iff inv bp sp _ _ _).mp h2, rfl⟩
      · rintro ⟨bp', sp', rfl, rfl, -, -, -, rfl⟩
        rfl
    · simp only [reduceCtorEq, false_iff]
      rintro ⟨bp', sp', rfl, rfl, -, -, hspec, rfl⟩
      exact h2 ((threshold_iff inv bp sp _ _ _).mpr hspec)

/-- Buying on venue `b` at `100` and selling on venue `a` at `200` scores
far above the threshold. -/
theorem scorePair_quoteB_quoteA :
    scorePair 1000 quoteB quoteA = some (mkOpportunity quoteB quoteA 1000 100 200) := by
  have hf1 : get_trading_fee "b" = 2/1000 := rfl
  have hf2 : get_trading_fee "a" = 2/1000 := rfl
  have hw : get_withdrawal_fee "b" "BTC/USDT" = 0 := rfl
  simp only [scorePair, quoteB, quoteA, hf1, hf2, hw, min_profit_threshold]
  norm_num [calc_profit_percent, calc_profit, calc_final_amount, calc_amount_bought]

/-- Buying on venue `a` at `300` and selling on venue `b` at `100` is a
loss, so the pair in list order scores to nothing. -/
theorem scorePair_quoteA_quoteB : scorePair 1000 quoteA quoteB = none := by
  have hf1 : get_trading_fee "b" = 2/1000 := rfl
  have hf2 : get_trading_fee "a" = 2/1000 := rfl
  have hw : get_withdrawal_fee "a" "BTC/USDT" = 0 := rfl
  simp only [scorePair, quoteA, quoteB, hf1, hf2, hw, min_profit_threshold]
  norm_num [calc_profit_percent, calc_profit, calc_final_amount, calc_amount_bought]

/-- On the quote list `[quoteA, quoteB]` the scorer returns nothing. -/
theorem calculate_quoteA_quoteB_empty :
    calculate_arbitrage_profit [quoteA, quoteB] 1000 = [] := by
  unfold calculate_arbitrage_profit
  rw [show upperPairs [quoteA, quoteB] = [(quoteA, quoteB)] from rfl]
  rw [List.filterMap]
  simp [scorePair_quoteA_quoteB]

/-- Buying on venue `d` at `90` and selling on venue `c` at `150` scores
far above the threshold. -/
theorem scorePair_quoteD_quoteC :
    scorePair 1000 quoteD quoteC = some (mkOpportunity quoteD quoteC 1000 90 150) := by
  have hf1 : get_trading_fee "d" = 2/1000 := rfl
  have hf2 : get_trading_fee "c" = 2/1000 := rfl
  have hw : get_withdrawal_fee "d" "BTC/USDT" = 0 := rfl
  simp only [scorePair, quoteD, quoteC, hf1, hf2, hw, min_profit_threshold]
  norm_num [calc_profit_percent, calc_profit, calc_final_amount, calc_amount_bought]

/-- Buying on venue `c` at `400` and selling on venue `d` at `90` is a
loss, so the pair in list order scores to nothing. -/
theorem scorePair_quoteC_quoteD : scorePair 1000 quoteC quoteD = none := by
  have hf1 : get_trading_fee "d" = 2/1000 := rfl
  have hf2 : get_trading_fee "c" = 2/1000 := rfl
  have hw : get_withdrawal_fee "c" "BTC/USDT" = 0 := rfl
  simp only [scorePair, quoteC, quoteD, hf1, hf2, hw, min_profit_threshold]
  norm_num [calc_profit_percent, calc_profit, calc_final_amount, calc_amount_bought]

/-- On the quote list `[quoteC, quoteD]` the scorer returns nothing. -/
theorem calculate_quoteC_quoteD_empty :
    calculate_arbitrage_profit [quoteC, quoteD] 1000 = [] := by
  unfold calculate_arbitrage_profit
  rw [show upperPairs [quoteC, quoteD] = [(quoteC, quoteD)] from rfl]
  rw [List.filterMap]
  simp [scorePair_quoteC_quoteD]

/-- Buying on `echo` at `100` and selling on `fox` at `102` clears the
threshold. -/
theorem scorePair_quoteE_quoteF :
    scorePair 1000 quoteE quoteF = some (mkOpportunity quoteE quoteF 1000 100 102) := by
  have hf1 : get_trading_fee "echo" = 2/1000 := rfl
  have hf2 : get_trading_fee "fox" = 2/1000 := rfl
  have hw : get_withdrawal_fee "echo" "BTC/USDT" = 0 := rfl
  simp only [scorePair, quoteE, quoteF, hf1, hf2, hw, min_profit_threshold]
  norm_num [calc_profit_percent, calc_profit, calc_final_amount, calc_amount_bought]

/-- On the quote list `[quoteE, quoteF]` the scorer emits exactly the
`echo → fox` opportunity. -/
theorem calculate_quoteE_quoteF :
    calculate_arbitrage_profit [quoteE, quoteF] 1000 =
      [mkOpportunity quoteE quoteF 1000 100 102] := by
  unfold calculate_arbitrage_profit
  rw [show upperPairs [quoteE, quoteF] = [(quoteE, quoteF)] from rfl]
  rw [List.filterMap]
  simp [scorePair_quoteE_quoteF]

/-- Buying on `zeta` at `100` and selling on `beta` at `102` clears the
threshold. -/
theorem scorePair_quoteZ_quoteBeta :
    scorePair 1000 quoteZ quoteBeta = some (mkOpportunity quoteZ quoteBeta 1000 100 102) := by
  have hf1 : get_trading_fee "zeta" = 2/1000 := rfl
  have hf2 : get_trading_fee "beta" = 2/1000 := rfl
  have hw : get_withdrawal_fee "zeta" "BTC/USDT" = 0 := rfl
  simp only [scorePair, quoteZ, quoteBeta, hf1, hf2, hw, min_profit_threshold]
  norm_num [calc_profit_percent, calc_profit, calc_final_amount, calc_amount_bought]

/-- Buying on `zeta` at `100` and selling on `alpha` at `102` clears the
threshold. -/
theorem scorePair_quoteZ_quoteAlpha :
    scorePair 1000 quoteZ quoteAlpha =
      some (mkOpportunity quoteZ quoteAlpha 1000 100 102) := by
  have hf1 : get_trading_fee "zeta" = 2/1000 := rfl
  have hf2 : get_trading_fee "alpha" = 2/1000 := rfl
  have hw : get_withdrawal_fee "zeta" "BTC/USDT" = 0 := rfl
  simp only [scorePair, quoteZ, quoteAlpha, hf1, hf2, hw, min_profit_threshold]
  norm_num [calc_profit_percent, calc_profit, calc_final_amount, calc_amount_bought]

/-- Buying on `beta` at its prohibitive ask and selling on `alpha` is a
loss. -/
theorem scorePair_quoteBeta_quoteAlpha :
    scorePair 1000 quoteBeta quoteAlpha = none := by
  have hf1 : get_trading_fee "beta" = 2/1000 := rfl
  have hf2 : get_trading_fee "alpha" = 2/1000 := rfl
  have hw : get_withdrawal_fee "beta" "BTC/USDT" = 0 := rfl
  simp only [scorePair, quoteBeta, quoteAlpha, hf1, hf2, hw, min_profit_threshold]
  norm_num [calc_profit_percent, calc_profit, calc_final_amount, calc_amount_bought]

/-- Numeric value of the `zeta → beta` opportunity's profit percent. -/
theorem profit_percent_quoteZ_quoteBeta :
    (mkOpportunity quoteZ quoteBeta 1000 100 102).profit_percent = 199051/125000 := by
  have hf1 : get_trading_fee "zeta" = 2/1000 := rfl
  have hf2 : get_trading_fee "beta" = 2/1000 := rfl
  have hw : get_withdrawal_fee "zeta" "BTC/USDT" = 0 := rfl
  simp only [mkOpportunity, quoteZ, quoteBeta, hf1, hf2, hw]
  norm_num [calc_profit_percent, calc_profit, calc_final_amount, calc_amount_bought]

/-- Numeric value of the `zeta → alpha` opportunity's profit percent. -/
theorem profit_percent_quoteZ_quoteAlpha :
    (mkOpportunity quoteZ quoteAlpha 1000 100 102).profit_percent = 199051/125000 := by
  have hf1 : get_trading_fee "zeta" = 2/1000 := rfl
  have hf2 : get_trading_fee "alpha" = 2/1000 := rfl
  have hw : get_withdrawal_fee "zeta" "BTC/USDT" = 0 := rfl
  simp only [mkOpportunity, quoteZ, quoteAlpha, hf1, hf2, hw]
  norm_num [calc_profit_percent, calc_profit, calc_final_amount, calc_amount_bought]

/-- Numeric value of the `zeta → beta` opportunity's absolute profit. -/
theorem profit_amount_quoteZ_quoteBeta :
    (mkOpportunity quoteZ quoteBeta 1000 100 102).profit_amount = 199051/12500 := by
  have hf1 : get_trading_fee "zeta" = 2/1000 := rfl
  have hf2 : get_trading_fee "beta" = 2/1000 := rfl
  have hw : get_withdrawal_fee "zeta" "BTC/USDT" = 0 := rfl
  simp only [mkOpportunity, quoteZ, quoteBeta, hf1, hf2, hw]
  norm_num [calc_profit_percent, calc_profit, calc_final_amount, calc_amount_bought]

/-- Numeric value of the `zeta → alpha` opportunity's absolute profit. -/
theorem profit_amount_quoteZ_quoteAlpha :
    (mkOpportunity quoteZ quoteAlpha 1000 100 102).profit_amount = 199051/12500 := by
  have hf1 : get_trading_fee "zeta" = 2/1000 := rfl
  have hf2 : get_trading_fee "alpha" = 2/1000 := rfl
  have hw : get_withdrawal_fee "zeta" "BTC/USDT" = 0 := rfl
  simp only [mkOpportunity, quoteZ, quoteAlpha, hf1, hf2, hw]
  norm_num [calc_profit_percent, calc_profit, calc_final_amount, calc_amount_bought]

/-- Full scorer run on `[quoteZ, quoteBeta, quoteAlpha]`: two
equal-profit opportunities, kept in generation order by the stable
sort. -/
theorem calculate_quoteZBA :
    calculate_arbitrage_profit [quoteZ, quoteBeta, quoteAlpha] 1000 =
      [mkOpportunity quoteZ quoteBeta 1000 100 102,
       mkOpportunity quoteZ quoteAlpha 1000 100 102] := by
  unfold calculate_arbitrage_profit
  rw [show upperPairs [quoteZ, quoteBeta, quoteAlpha] =
    [(quoteZ, quoteBeta), (quoteZ, quoteAlpha), (quoteBeta, quoteAlpha)] from rfl]
  rw [show ([(quoteZ, quoteBeta), (quoteZ, quoteAlpha), (quoteBeta, quoteAlpha)].filterMap
      (fun p => scorePair 1000 p.1 p.2)) =
    [mkOpportunity quoteZ quoteBeta 1000 100 102,
     mkOpportunity quoteZ quoteAlpha 1000 100 102] by
    simp [List.filterMap_cons, scorePair_quoteZ_quoteBeta, scorePair_quoteZ_quoteAlpha,
      scorePair_quoteBeta_quoteAlpha]]
  apply List.mergeSort_of_sorted
  simp only [List.pairwise_cons, List.mem_singleton, List.not_mem_nil, List.Pairwise.nil]
  refine ⟨?_, ?_, trivial⟩
  · rintro o rfl
    rw [decide_eq_true_eq, profit_percent_quoteZ_quoteBeta, profit_percent_quoteZ_quoteAlpha]
  · rintro o h; cases h

/-! ## Claim theorems -/

/-- C2 (amended): an opportunity appears in the cross-venue scorer's
result if and only if it arises from a pair of quotes whose buy quote
PRECEDES the sell quote in the input list (`i < j`), whose prices are
present and non-zero, and whose profit — computed exactly by the spec's
§4.2 formula chain `amountBought`/`amountAfterTransfer`/`proceeds`/
`profitFraction` — strictly exceeds the 1% threshold.  (The claim's
quantification over *every* pair fails: the reverse direction `j, i` is
never evaluated; see the counterexample.) -/
theorem cross_scorer_formula_and_threshold (prices : List PriceInfo) (investment : ℚ)
    (o : Opportunity) :
    o ∈ calculate_arbitrage_profit prices investment ↔
      ∃ i j : ℕ, i < j ∧
        ∃ buy sell, prices[i]? = some buy ∧ prices[j]? = some sell ∧
          ∃ bp sp, buy.ask = some bp ∧ sell.bid = some sp ∧ bp ≠ 0 ∧ sp ≠ 0 ∧
            1/100 < spec_profitFraction investment bp sp
              (get_trading_fee buy.exchange) (get_trading_fee sell.exchange)
              (get_withdrawal_fee buy.exchange buy.symbol) ∧
            o = mkOpportunity buy sell investment bp sp := by
  rw [mem_calculate_iff]
  constructor
  · rintro ⟨⟨buy, sell⟩, hmem, hscore⟩
    obtain ⟨i, j, hij, ha, hb⟩ := (mem_upperPairs prices buy sell).mp hmem
    exact ⟨i, j, hij, buy, sell, ha, hb,
      (scorePair_eq_some_iff investment buy sell o).mp hscore⟩
  · rintro ⟨i, j, hij, buy, sell, ha, hb, hrest⟩
    exact ⟨(buy, sell), (mem_upperPairs prices buy sell).mpr ⟨i, j, hij, ha, hb⟩,
      (scorePair_eq_some_iff investment buy sell o).mpr hrest⟩

/-- C3 (amended): the cross-venue scorer does NOT evaluate every ordered
pair of distinct venues.  It evaluates exactly the pairs
`(prices[i], prices[j])` with `i < j` — one direction per unordered pair,
determined by position in the input quote list — so every emitted
opportunity buys on an earlier-listed venue and sells on a later-listed
one.  (The opposite direction is never computed; see the
counterexample.) -/
theorem cross_scorer_only_upper_pairs (prices : List PriceInfo) (investment : ℚ)
    (o : Opportunity) (h : o ∈ calculate_arbitrage_profit prices investment) :
    ∃ i j : ℕ, i < j ∧
      ∃ buy sell, prices[i]? = some buy ∧ prices[j]? = some sell ∧
        o.buy_exchange = buy.exchange ∧ o.sell_exchange = sell.exchange ∧
        scorePair investment buy sell = some o := by
  obtain ⟨⟨buy, sell⟩, hmem, hscore⟩ := (mem_calculate_iff prices investment o).mp h
  obtain ⟨i, j, hij, ha, hb⟩ := (mem_upperPairs prices buy sell).mp hmem
  obtain ⟨bp, sp, -, -, -, -, -, rfl⟩ :=
    (scorePair_eq_some_iff investment buy sell o).mp hscore
  exact ⟨i, j, hij, buy, sell, ha, hb, rfl, rfl, hscore⟩

/-- C2 counterexample: on the quote list `[quoteA, quoteB]` the pair
(buy on `b` at ask `100`, sell on `a` at bid `200`) has a spec profit
fraction far above 1%, both prices present and non-zero, yet the scorer
emits nothing at all — because `b` follows `a` in the list, that
direction is skipped (`if i >= j: continue`).  This falsifies the claim's
"appears in the result if and only if profitFraction strictly exceeds the
threshold" read over every pair of quotes. -/
theorem reverse_pair_profit_not_emitted :
    quoteB.ask = some 100 ∧ quoteA.bid = some 200 ∧ (100 : ℚ) ≠ 0 ∧ (200 : ℚ) ≠ 0 ∧
    1/100 < spec_profitFraction 1000 100 200 (get_trading_fee quoteB.exchange)
      (get_trading_fee quoteA.exchange)
      (get_withdrawal_fee quoteB.exchange quoteB.symbol) ∧
    calculate_arbitrage_profit [quoteA, quoteB] 1000 = [] := by
  refine ⟨rfl, rfl, by norm_num, by norm_num, ?_, calculate_quoteA_quoteB_empty⟩
  have hf1 : get_trading_fee quoteB.exchange = 2/1000 := rfl
  have hf2 : get_trading_fee quoteA.exchange = 2/1000 := rfl
  have hw : get_withdrawal_fee quoteB.exchange quoteB.symbol = 0 := rfl
  rw [hf1, hf2, hw]
  norm_num [spec_profitFraction]

/-- C3 counterexample: the direction buy-on-`d` / sell-on-`c` would score
`≈ 66%` profit — `scorePair` emits it when asked directly — yet on the
input `[quoteC, quoteD]` the scorer's output is empty: the scorer never
computes the direction whose buy venue is listed after its sell venue, so
it does not evaluate both directions of a venue pair. -/
theorem reverse_direction_never_computed :
    scorePair 1000 quoteD quoteC = some (mkOpportunity quoteD quoteC 1000 90 150) ∧
    min_profit_threshold < (mkOpportunity quoteD quoteC 1000 90 150).profit_percent ∧
    calculate_arbitrage_profit [quoteC, quoteD] 1000 = [] := by
  refine ⟨scorePair_quoteD_quoteC, ?_, calculate_quoteC_quoteD_empty⟩
  have hf1 : get_trading_fee "d" = 2/1000 := rfl
  have hf2 : get_trading_fee "c" = 2/1000 := rfl
  have hw : get_withdrawal_fee "d" "BTC/USDT" = 0 := rfl
  simp only [mkOpportunity, quoteD, quoteC, hf1, hf2, hw, min_profit_threshold]
  norm_num [calc_profit_percent, calc_profit, calc_final_amount, calc_amount_bought]

/-- Witness for C3's amended theorem at the concrete quote list
`[quoteE, quoteF]` and its emitted opportunity. -/
theorem cross_scorer_only_upper_pairs_witness :
    mkOpportunity quoteE quoteF 1000 100 102 ∈ calculate_arbitrage_profit [quoteE, quoteF] 1000 ∧
    ∃ i j : ℕ, i < j ∧
      ∃ buy sell, [quoteE, quoteF][i]? = some buy ∧ [quoteE, quoteF][j]? = some sell ∧
        (mkOpportunity quoteE quoteF 1000 100 102).buy_exchange = buy.exchange ∧
        (mkOpportunity quoteE quoteF 1000 100 102).sell_exchange = sell.exchange ∧
        scorePair 1000 buy sell = some (mkOpportunity quoteE quoteF 1000 100 102) :=
  have hmem : mkOpportunity quoteE quoteF 1000 100 102 ∈
      calculate_arbitrage_profit [quoteE, quoteF] 1000 := by
    rw [calculate_quoteE_quoteF]; exact List.mem_singleton_self _
  ⟨hmem, cross_scorer_only_upper_pairs [quoteE, quoteF] 1000 _ hmem⟩

/-- C4 (confirmed): whenever the balance check passed, the buy leg filled
(`status == 'closed'`), and withdrawal initiation fails, the orchestrator
places exactly one further order — a compensating market sell of the
just-bought `filled` amount back on the buy venue — and the execution
returns `None` (failed): no deposit wait matters and no order ever
reaches the sell venue. -/
theorem withdrawal_failure_compensation (env : Env) (opp : Opportunity) (bo : OrderResult)
    (hbal : check_balances env opp.buy_exchange opp.sell_exchange opp.symbol
      opp.investment = true)
    (hbuy : env.marketOrder opp.buy_exchange opp.symbol "buy" opp.investment = some bo)
    (hclosed : bo.status = "closed")
    (hwd : withdraw_crypto env opp.buy_exchange opp.sell_exchange opp.symbol
      bo.filled = none) :
    execute_arbitrage env opp =
      (none, [⟨opp.buy_exchange, opp.symbol, "buy", opp.investment⟩,
              ⟨opp.buy_exchange, opp.symbol, "sell", bo.filled⟩]) := by
  unfold execute_arbitrage
  simp only [hbal, hbuy, hclosed, hwd, Bool.true_eq_false, if_false, ne_eq,
    not_true_eq_false]

/-- Witness for C4 at the concrete environment `envWithdrawFail`. -/
theorem withdrawal_failure_compensation_witness :
    execute_arbitrage envWithdrawFail oppFix =
      (none, [⟨"binance", "BTC/USDT", "buy", 1000⟩,
              ⟨"binance", "BTC/USDT", "sell", 7⟩]) :=
  withdrawal_failure_compensation envWithdrawFail oppFix ⟨"closed", 7, 700⟩
    (by decide) rfl rfl rfl

/-- C5 (confirmed): the balance check passes exactly when both venues'
balance queries succeed (so the sell venue is reachable and can report a
holding for the asset), the symbol splits into base and quote, and the
buy venue's free quote-currency balance covers the investment; whenever
it reports insufficient, `execute_arbitrage` returns `None` immediately
with an empty order trace — no order is placed on any venue. -/
theorem balance_check_gate (env : Env) (opp : Opportunity) :
    (check_balances env opp.buy_exchange opp.sell_exchange opp.symbol
        opp.investment = true ↔
      ∃ buy_free sell_free, env.balance opp.buy_exchange = some buy_free ∧
        env.balance opp.sell_exchange = some sell_free ∧
        2 ≤ (split_on_slash opp.symbol).length ∧
        opp.investment ≤ buy_free (quote_currency_of opp.symbol)) ∧
    (check_balances env opp.buy_exchange opp.sell_exchange opp.symbol
        opp.investment = false →
      execute_arbitrage env opp = (none, [])) := by
  constructor
  · unfold check_balances
    rcases hb : env.balance opp.buy_exchange with _ | buy_free <;>
      rcases hs : env.balance opp.sell_exchange with _ | sell_free
    · simp
    · simp
    · simp
    · simp only [Option.some.injEq, exists_and_left, exists_eq_left']
      split_ifs with hlen
      · constructor
        · intro h; exact absurd h (by simp)
        · rintro ⟨h2, -⟩; omega
      · rw [decide_eq_true_eq]
        constructor
        · intro h; exact ⟨by omega, h⟩
        · rintro ⟨-, h⟩; exact h
  · intro h
    unfold execute_arbitrage
    simp [h]

/-- Witness for C5 at the concrete environment `envPoor`, whose free
balance `1` is below `oppFix`'s investment `1000`. -/
theorem balance_check_gate_witness :
    execute_arbitrage envPoor oppFix = (none, []) :=
  (balance_check_gate envPoor oppFix).2 (by decide)

/-- C1 (code bug): in an environment where no deposit ever arrives, the
deposit wait does time out (`wait_for_deposit` returns `False` after its
120 thirty-second polls), yet `execute_arbitrage` — which discards that
return value — still places the disposing market sell on the sell venue
and even reports a successful execution.  The claim (and the code's own
`wait_for_deposit` contract, which logs `Deposit timeout` and returns
`False` precisely so the caller can stop) says the execution must end
failed with no further order after the timeout. -/
theorem deposit_timeout_still_places_sell_order :
    wait_for_deposit envTimeout.deposits 10 deposit_wait_max_polls = false ∧
    execute_arbitrage envTimeout oppFix =
      (some ⟨true, -20, 17⟩,
       [⟨"binance", "BTC/USDT", "buy", 1000⟩, ⟨"kucoin", "BTC/USDT", "sell", 10⟩]) := by
  constructor
  · decide
  · have hbal : check_balances envTimeout "binance" "kucoin" "BTC/USDT" 1000 = true := by
      decide
    have hmo : ∀ a b c (d : ℚ), envTimeout.marketOrder a b c d = some ⟨"closed", 10, 980⟩ :=
      fun _ _ _ _ => rfl
    have hda : ∀ a b, envTimeout.depositAddress a b = some "addr" := fun _ _ => rfl
    have hwc : ∀ a b (c : ℚ) d, envTimeout.withdrawCall a b c d = some () :=
      fun _ _ _ _ => rfl
    unfold execute_arbitrage withdraw_crypto
    simp only [oppFix, hbal, hmo, hda, hwc, Bool.true_eq_false, if_false, ne_eq,
      not_true_eq_false, ite_false, ite_true, eq_self_iff_true]
    norm_num

/-- C6 counterexample: with the code's own fee tables (binance taker fee,
kucoin taker fee, binance USDT withdrawal fee `1`), an investment of
`1000` at buy ask `100000` buys less than the withdrawal fee, and then
RAISING the sell bid from `1` to `2` strictly LOWERS the computed
profit percentage — profit is not monotonically increasing in the sell
bid on all quote sets. -/
theorem profit_not_monotone_in_bid :
    (1 : ℚ) < 2 ∧
    calc_profit_percent 1000 100000 2 (get_trading_fee "binance") (get_trading_fee "kucoin")
        (get_withdrawal_fee "binance" "USDT/IRR") <
      calc_profit_percent 1000 100000 1 (get_trading_fee "binance") (get_trading_fee "kucoin")
        (get_withdrawal_fee "binance" "USDT/IRR") := by
  have h1 : get_trading_fee "binance" = 1/1000 := rfl
  have h2 : get_trading_fee "kucoin" = 1/1000 := rfl
  have h3 : get_withdrawal_fee "binance" "USDT/IRR" = 1 := rfl
  refine ⟨by norm_num, ?_⟩
  rw [h1, h2, h3]
  norm_num [calc_profit_percent, calc_profit, calc_final_amount, calc_amount_bought]

/-- C6 (amended): the profit computation is deterministic (equal inputs
give equal outputs), with fees and withdrawal fee held constant it is
strictly decreasing in the buy ask (for positive prices and fees below
100%), and it is strictly increasing in the sell bid PROVIDED the
withdrawal fee is below the amount bought — when the withdrawal fee
exceeds the amount bought the direction reverses (see the
counterexample). -/
theorem profit_percent_deterministic_and_monotone :
    (∀ investment buy_price sell_price buy_fee sell_fee withdrawal_fee
        investment' buy_price' sell_price' buy_fee' sell_fee' withdrawal_fee',
        investment = investment' → buy_price = buy_price' → sell_price = sell_price' →
        buy_fee = buy_fee' → sell_fee = sell_fee' → withdrawal_fee = withdrawal_fee' →
        calc_profit_percent investment buy_price sell_price buy_fee sell_fee
            withdrawal_fee =
          calc_profit_percent investment' buy_price' sell_price' buy_fee' sell_fee'
            withdrawal_fee') ∧
    (∀ investment buy_price buy_fee sell_fee withdrawal_fee sell_price sell_price',
        0 < investment → sell_fee < 1 →
        withdrawal_fee < calc_amount_bought investment buy_price buy_fee →
        sell_price < sell_price' →
        calc_profit_percent investment buy_price sell_price buy_fee sell_fee
            withdrawal_fee <
          calc_profit_percent investment buy_price sell_price' buy_fee sell_fee
            withdrawal_fee) ∧
    (∀ investment sell_price buy_fee sell_fee withdrawal_fee buy_price buy_price',
        0 < investment → 0 < sell_price → buy_fee < 1 → sell_fee < 1 →
        0 < buy_price → buy_price < buy_price' →
        calc_profit_percent investment buy_price' sell_price buy_fee sell_fee
            withdrawal_fee <
          calc_profit_percent investment buy_price sell_price buy_fee sell_fee
            withdrawal_fee) := by
  refine ⟨?_, ?_, ?_⟩
  · intro inv bp sp bf sf wf inv' bp' sp' bf' sf' wf' h1 h2 h3 h4 h5 h6
    subst h1; subst h2; subst h3; subst h4; subst h5; subst h6; rfl
  · intro inv bp bf sf wf sp sp' hinv hsf hwf hsp
    unfold calc_profit_percent calc_profit
    rw [mul_lt_mul_right (by norm_num : (0:ℚ) < 100), div_lt_div_iff_of_pos_right hinv,
      sub_lt_sub_iff_right]
    unfold calc_final_amount
    have ha : 0 < calc_amount_bought inv bp bf - wf := sub_pos.mpr hwf
    have hs : 0 < sp' - sp := sub_pos.mpr hsp
    have hf : 0 < 1 - sf := sub_pos.mpr hsf
    nlinarith [mul_pos (mul_pos ha hs) hf]
  · intro inv sp bf sf wf bp bp' hinv hsp hbf hsf hbp hlt
    unfold calc_profit_percent calc_profit
    rw [mul_lt_mul_right (by norm_num : (0:ℚ) < 100), div_lt_div_iff_of_pos_right hinv,
      sub_lt_sub_iff_right]
    unfold calc_final_amount calc_amount_bought
    have hd : inv / bp' < inv / bp := div_lt_div_of_pos_left hinv hbp hlt
    have hd' : 0 < inv / bp - inv / bp' := sub_pos.mpr hd
    have hbf' : 0 < 1 - bf := sub_pos.mpr hbf
    have hsf' : 0 < 1 - sf := sub_pos.mpr hsf
    nlinarith [mul_pos (mul_pos (mul_pos hd' hbf') hsp) hsf']

/-- Witness for C6's amended theorem at concrete inputs: determinism at
one input, bid-monotonicity from `102` to `103`, and ask-monotonicity
from `100` to `101`. -/
theorem profit_percent_monotone_witness :
    calc_profit_percent 1 2 3 (1/2) (1/3) (1/4) =
        calc_profit_percent 1 2 3 (1/2) (1/3) (1/4) ∧
    calc_profit_percent 1000 100 102 0 0 0 < calc_profit_percent 1000 100 103 0 0 0 ∧
    calc_profit_percent 1000 101 102 0 0 0 < calc_profit_percent 1000 100 102 0 0 0 :=
  ⟨profit_percent_deterministic_and_monotone.1 1 2 3 (1/2) (1/3) (1/4)
      1 2 3 (1/2) (1/3) (1/4) rfl rfl rfl rfl rfl rfl,
   profit_percent_deterministic_and_monotone.2.1 1000 100 0 0 0 102 103 (by norm_num)
      (by norm_num) (by norm_num [calc_amount_bought]) (by norm_num),
   profit_percent_deterministic_and_monotone.2.2 1000 102 0 0 0 100 101 (by norm_num)
      (by norm_num) (by norm_num) (by norm_num) (by norm_num) (by norm_num)⟩

/-- Evaluation of the triangular scorer on the spec's Scenario B inputs:
leg asks `50000` and `20`, final bid `1050`, starting amount `1000`. -/
theorem tri_scenario_eval :
    calculate_arbitrage_opportunity ⟨none, some 50000⟩ ⟨none, some 20⟩ ⟨some 1050, none⟩
        1000 =
      some ⟨-19979062937021/200000000000, -19979062937021/20000000000,
            20937062979/20000000000⟩ := by
  have h1 : truthyQ (some (50000:ℚ)) = true := by decide
  have h2 : truthyQ (some (20:ℚ)) = true := by decide
  have h3 : truthyQ (some (1050:ℚ)) = true := by decide
  simp only [calculate_arbitrage_opportunity, h1, h2, h3, Bool.and_self, if_true,
    Option.getD_some, tri_fee_rate, Bool.and_true, Bool.true_and]
  norm_num [TriOpportunity.mk.injEq]

/-- C7 counterexample: on Scenario B's inputs the triangular scorer's
yield (final amount over starting amount) is below `1/100` — nowhere
near the claimed `≈ 1.0485` — and the reported profit percentage is
negative (`≈ −99.895%`), not a `4.85%` profit opportunity: dividing
`1000` into ask `50000`, dividing by ask `20`, multiplying by bid `1050`
and by `0.999³` leaves about `1.047` USDT of the original `1000`. -/
theorem triangular_scenario_b_is_a_loss :
    calculate_arbitrage_opportunity ⟨none, some 50000⟩ ⟨none, some 20⟩ ⟨some 1050, none⟩
        1000 =
      some ⟨-19979062937021/200000000000, -19979062937021/20000000000,
            20937062979/20000000000⟩ ∧
    (20937062979/20000000000 : ℚ) / 1000 < 1/100 ∧
    (-19979062937021/200000000000 : ℚ) < 0 :=
  ⟨tri_scenario_eval, by norm_num, by norm_num⟩

/-- C7 (amended): on Scenario B's inputs the scorer computes exactly
`final_amount = 1.04685314895` USDT from `1000` USDT, a yield of
`0.00104685314895` — the same value the spec's own product formula
`(1/50000)·(1/20)·1050·(1−0.001)³` evaluates to — so the scorer reports
a `≈ −99.895%` loss and no opportunity, not a `4.85%` profit. -/
theorem triangular_scenario_b_exact_value :
    calculate_arbitrage_opportunity ⟨none, some 50000⟩ ⟨none, some 20⟩ ⟨some 1050, none⟩
        1000 =
      some ⟨-19979062937021/200000000000, -19979062937021/20000000000,
            20937062979/20000000000⟩ ∧
    (1/50000 : ℚ) * (1/20) * 1050 * (1 - tri_fee_rate) ^ 3 =
      20937062979/20000000000000 ∧
    (20937062979/20000000000 : ℚ) / 1000 = 20937062979/20000000000000 :=
  ⟨tri_scenario_eval, by norm_num [tri_fee_rate], by norm_num⟩

/-- C8 counterexample: on `[quoteZ, quoteBeta, quoteAlpha]` the scorer
returns the `zeta → beta` opportunity before the `zeta → alpha` one.
Both have identical profit percent and identical absolute profit, and
`alpha` precedes `beta` lexically, so the claimed tie-break (larger
absolute profit, then lexical venue pair) would have to put
`zeta → alpha` first: the output violates the claimed ranking relation.
Ties are in fact kept in generation order (buy index, then sell index),
not resolved lexically. -/
theorem ranking_ties_not_lexical :
    calculate_arbitrage_profit [quoteZ, quoteBeta, quoteAlpha] 1000 =
      [mkOpportunity quoteZ quoteBeta 1000 100 102,
       mkOpportunity quoteZ quoteAlpha 1000 100 102] ∧
    (mkOpportunity quoteZ quoteBeta 1000 100 102).profit_percent =
      (mkOpportunity quoteZ quoteAlpha 1000 100 102).profit_percent ∧
    (mkOpportunity quoteZ quoteBeta 1000 100 102).profit_amount =
      (mkOpportunity quoteZ quoteAlpha 1000 100 102).profit_amount ∧
    str_lex_lt (mkOpportunity quoteZ quoteAlpha 1000 100 102).sell_exchange
      (mkOpportunity quoteZ quoteBeta 1000 100 102).sell_exchange ∧
    ¬ (calculate_arbitrage_profit [quoteZ, quoteBeta, quoteAlpha] 1000).Pairwise
        spec_rank_le := by
  refine ⟨calculate_quoteZBA,
    profit_percent_quoteZ_quoteBeta.trans profit_percent_quoteZ_quoteAlpha.symm,
    profit_amount_quoteZ_quoteBeta.trans profit_amount_quoteZ_quoteAlpha.symm,
    by decide, ?_⟩
  intro h
  rw [calculate_quoteZBA] at h
  have h1 : spec_rank_le (mkOpportunity quoteZ quoteBeta 1000 100 102)
      (mkOpportunity quoteZ quoteAlpha 1000 100 102) :=
    (List.pairwise_cons.mp h).1 _ (List.mem_singleton_self _)
  rcases h1 with h1 | ⟨-, h3 | ⟨-, h5 | ⟨-, h7⟩⟩⟩
  · rw [profit_percent_quoteZ_quoteBeta, profit_percent_quoteZ_quoteAlpha] at h1
    exact absurd h1 (lt_irrefl _)
  · rw [profit_amount_quoteZ_quoteBeta, profit_amount_quoteZ_quoteAlpha] at h3
    exact absurd h3 (lt_irrefl _)
  · exact absurd h5 (by decide)
  · exact absurd h7 (by decide)

/-- C8 (amended): the scorer's output is sorted descending by
`profit_percent`, it is a permutation of the opportunities generated by
the `i < j` double loop, and — by stability of Python's `sorted` — the
elements of any equal-`profit_percent` class appear in exactly their
generation order (buy index, then sell index, in input-list order).
Venue names and absolute profit play no role in the ordering; the output
is deterministic in the input list. -/
theorem ranking_sorted_stable (prices : List PriceInfo) (inv : ℚ) :
    (calculate_arbitrage_profit prices inv).Pairwise
        (fun a b => b.profit_percent ≤ a.profit_percent) ∧
    (calculate_arbitrage_profit prices inv).Perm
        ((upperPairs prices).filterMap (fun p => scorePair inv p.1 p.2)) ∧
    ∀ v : ℚ,
      (calculate_arbitrage_profit prices inv).filter
          (fun o => decide (o.profit_percent = v)) =
        ((upperPairs prices).filterMap (fun p => scorePair inv p.1 p.2)).filter
          (fun o => decide (o.profit_percent = v)) := by
  have trans : ∀ a b c : Opportunity,
      (fun a b => decide (b.profit_percent ≤ a.profit_percent)) a b →
      (fun a b => decide (b.profit_percent ≤ a.profit_percent)) b c →
      (fun a b => decide (b.profit_percent ≤ a.profit_percent)) a c := by
    intro a b c h1 h2
    simp only [decide_eq_true_eq] at h1 h2 ⊢
    exact le_trans h2 h1
  have total : ∀ a b : Opportunity,
      ((fun a b => decide (b.profit_percent ≤ a.profit_percent)) a b ||
       (fun a b => decide (b.profit_percent ≤ a.profit_percent)) b a) = true := by
    intro a b
    simp only [Bool.or_eq_true, decide_eq_true_eq]
    exact le_total _ _
  refine ⟨?_, ?_, ?_⟩
  · exact (List.sorted_mergeSort trans total _).imp (fun h => of_decide_eq_true h)
  · exact List.mergeSort_perm _ _
  · intro v
    have hfil : List.Sublist
        (((upperPairs prices).filterMap (fun p => scorePair inv p.1 p.2)).filter
          (fun o => decide (o.profit_percent = v)))
        ((upperPairs prices).filterMap (fun p => scorePair inv p.1 p.2)) :=
      List.filter_sublist _
    have hpw : (((upperPairs prices).filterMap (fun p => scorePair inv p.1 p.2)).filter
        (fun o => decide (o.profit_percent = v))).Pairwise
        (fun a b => decide (b.profit_percent ≤ a.profit_percent)) := by
      apply List.pairwise_of_forall_mem_list
      intro a ha b hb
      have ha' : a.profit_percent = v := of_decide_eq_true (List.mem_filter.mp ha).2
      have hb' : b.profit_percent = v := of_decide_eq_true (List.mem_filter.mp hb).2
      rw [decide_eq_true_eq, ha', hb']
    have hsub := List.sublist_mergeSort trans total hpw hfil
    have heq : (((upperPairs prices).filterMap (fun p => scorePair inv p.1 p.2)).filter
        (fun o => decide (o.profit_percent = v))).filter
          (fun o => decide (o.profit_percent = v)) =
        ((upperPairs prices).filterMap (fun p => scorePair inv p.1 p.2)).filter
          (fun o => decide (o.profit_percent = v)) := by
      rw [List.filter_eq_self]
      intro a ha
      exact (List.mem_filter.mp ha).2
    have hsub2 := hsub.filter (fun o => decide (o.profit_percent = v))
    rw [heq] at hsub2
    have hlen : ((calculate_arbitrage_profit prices inv).filter
        (fun o => decide (o.profit_percent = v))).length =
        (((upperPairs prices).filterMap (fun p => scorePair inv p.1 p.2)).filter
          (fun o => decide (o.profit_percent = v))).length :=
      ((List.mergeSort_perm _ _).filter _).length_eq
    exact (List.Sublist.eq_of_length hsub2 hlen.symm).symm

/-- C9 (confirmed): with the anchor currency `USDT` (the bot's default,
and the currency hard-wired into the pair construction), every triangle
returned by `find_triangular_pairs` has currencies
`[USDT, A, B, USDT]` and path `[A/USDT, A/B, B/USDT]`: the first pair is
`A`/anchor, the second `A`/`B`, the third `B`/anchor, so each leg's
output currency is the next leg's input currency and the cycle starts
and ends at the anchor. -/
theorem triangle_chaining_invariant (markets : List MarketSym) (t : Triangle)
    (h : t ∈ find_triangular_pairs markets "USDT") :
    ∃ A B, t.currencies = ["USDT", A, B, "USDT"] ∧
      t.path = [⟨A, "USDT"⟩, ⟨A, B⟩, ⟨B, "USDT"⟩] := by
  unfold find_triangular_pairs at h
  simp only [List.mem_flatMap, List.mem_filterMap, List.mem_filter] at h
  obtain ⟨pa, ⟨hpamem, hpaq⟩, pb, ⟨hpbmem, hpbb⟩, hif⟩ := h
  rcases pa with ⟨pab, paq⟩
  rcases pb with ⟨pbb, pbq⟩
  have hpaq' : paq = "USDT" := of_decide_eq_true hpaq
  have hpbb' : pbb = pab := of_decide_eq_true hpbb
  subst hpaq'; subst hpbb'
  by_cases hc : (⟨pbq, "USDT"⟩ : MarketSym) ∈ markets
  · rw [if_pos hc] at hif
    obtain rfl := Option.some.inj hif
    exact ⟨pbb, pbq, rfl, rfl⟩
  · rw [if_neg hc] at hif
    exact absurd hif (by simp)

/-- Witness for C9 at the concrete market list `triMarkets`, whose only
triangle is `triBTCETH`. -/
theorem triangle_chaining_invariant_witness :
    triBTCETH ∈ find_triangular_pairs triMarkets "USDT" ∧
    ∃ A B, triBTCETH.currencies = ["USDT", A, B, "USDT"] ∧
      triBTCETH.path = [⟨A, "USDT"⟩, ⟨A, B⟩, ⟨B, "USDT"⟩] :=
  ⟨by decide, triangle_chaining_invariant triMarkets triBTCETH (by decide)⟩

/-- C10 (confirmed): both scorers are total Lean functions (they always
return, never raising); every opportunity the cross-venue scorer emits
comes from a pair whose buy ask and sell bid are present (`some`) and
non-zero — quotes with an absent or zero price are skipped by the
truthiness guard and contribute nothing — and the triangular scorer
returns `none` whenever any of its three required leg prices is
absent. -/
theorem scorer_totality_skips_missing_prices :
    (∀ (prices : List PriceInfo) (inv : ℚ) (o : Opportunity),
        o ∈ calculate_arbitrage_profit prices inv →
        ∃ buy sell bp sp, buy.ask = some bp ∧ sell.bid = some sp ∧ bp ≠ 0 ∧ sp ≠ 0 ∧
          o = mkOpportunity buy sell inv bp sp) ∧
    (∀ (prices_a prices_b prices_c : OrderBookTop) (s : ℚ),
        prices_a.ask = none ∨ prices_b.ask = none ∨ prices_c.bid = none →
        calculate_arbitrage_opportunity prices_a prices_b prices_c s = none) := by
  constructor
  · intro prices inv o h
    obtain ⟨⟨buy, sell⟩, -, hscore⟩ := (mem_calculate_iff prices inv o).mp h
    obtain ⟨bp, sp, h1, h2, h3, h4, -, h6⟩ :=
      (scorePair_eq_some_iff inv buy sell o).mp hscore
    exact ⟨buy, sell, bp, sp, h1, h2, h3, h4, h6⟩
  · intro pa pb pc s h
    unfold calculate_arbitrage_opportunity
    rcases h with h | h | h <;> rw [h] <;> simp [truthyQ]

/-- Witness for C10: the emitted `echo → fox` opportunity comes from
present non-zero prices, and a triangular call with a missing first-leg
ask returns `none`. -/
theorem scorer_totality_witness :
    (∃ buy sell bp sp, buy.ask = some bp ∧ sell.bid = some sp ∧ bp ≠ 0 ∧ sp ≠ 0 ∧
        mkOpportunity quoteE quoteF 1000 100 102 = mkOpportunity buy sell 1000 bp sp) ∧
    calculate_arbitrage_opportunity ⟨some 1, none⟩ ⟨none, some 2⟩ ⟨some 3, some 4⟩ 7 =
      none :=
  ⟨scorer_totality_skips_missing_prices.1 [quoteE, quoteF] 1000 _
      (by rw [calculate_quoteE_quoteF]; exact List.mem_singleton_self _),
   scorer_totality_skips_missing_prices.2 _ _ _ 7 (Or.inl rfl)⟩

end Finance
